import Mathlib

/-!
Shallow embedding of `mlops-seed-code/model-deploy/sagemaker-model-deploy.ipynb`.

The notebook drives AWS SDK calls.  We embed the notebook's own logic as pure
Lean functions; the remote services (SageMaker, SSM, CodePipeline,
CloudFormation) are inputs: dictionaries, tag lists and lookup functions the
notebook's code consumes.  Python exceptions are modelled with `Option` /
`Except` (`none` / `.error` = the statement raises).
-/

namespace SecureMLOps

/-! ### Python dictionaries

Values returned by `describe_domain` are nested JSON-like objects, so a value
is either a primitive (rendered as a string) or a nested object.  A dictionary
is an association list; lookup takes the first matching key, update replaces
the value in place, and merging `\x7b**a, **b\x7d` folds `b` over `a` with
later entries overriding earlier ones, exactly as Python dictionaries behave
when the key lists are duplicate-free (the dictionaries coming out of the AWS
SDK are). -/

inductive Val where
  | prim : String → Val
  | obj : List (String × Val) → Val

abbrev Dict := List (String × Val)

/-- `d[k]` as a total lookup: `none` models a `KeyError`. -/
def dget : Dict → String → Option Val
  | [], _ => none
  | (k, v) :: rest, key => if k = key then some v else dget rest key

/-- `del d[k]`. -/
def ddel : Dict → String → Dict
  | [], _ => []
  | (k, v) :: rest, key =>
      if k = key then ddel rest key else (k, v) :: ddel rest key

/-- `d[k] = v`: replace in place if the key exists, else append. -/
def dset : Dict → String → Val → Dict
  | [], key, v => [(key, v)]
  | (k, w) :: rest, key, v =>
      if k = key then (k, v) :: rest else (k, w) :: dset rest key v

/-- `\x7b**a, **b\x7d`: entries of `b` override entries of `a`. -/
def dmerge (a : Dict) (b : Dict) : Dict :=
  b.foldl (fun acc kv => dset acc kv.1 kv.2) a

/-- Key membership. -/
def hasKey (d : Dict) (key : String) : Bool :=
  (dget d key).isSome

/-! Basic dictionary lemmas. -/

theorem dget_dset (d : Dict) (k : String) (v : Val) (k' : String) :
    dget (dset d k v) k' = if k' = k then some v else dget d k' := by
  induction d with
  | nil =>
      by_cases h : k' = k
      · subst h; simp [dset, dget]
      · simp [dset, dget, h, Ne.symm h]
  | cons kv rest ih =>
      obtain ⟨a, w⟩ := kv
      by_cases hak : a = k
      · subst hak
        by_cases hk' : a = k'
        · subst hk'; simp [dset, dget]
        · simp [dset, dget, hk', Ne.symm hk']
      · by_cases hk' : a = k'
        · subst hk'
          simp [dset, dget, hak, Ne.symm hak]
        · simp [dset, dget, hak, hk', ih]

theorem dget_ddel (d : Dict) (k k' : String) :
    dget (ddel d k) k' = if k' = k then none else dget d k' := by
  induction d with
  | nil => simp [ddel, dget]
  | cons kv rest ih =>
      obtain ⟨a, w⟩ := kv
      by_cases hak : a = k
      · subst hak
        rw [show ddel ((a, w) :: rest) a = ddel rest a from by simp [ddel],
          ih]
        by_cases hk' : k' = a
        · simp [hk']
        · simp [dget, hk', Ne.symm hk']
      · by_cases hk' : a = k'
        · subst hk'
          simp [ddel, dget, hak]
        · simp [ddel, dget, hak, hk', ih]

theorem dget_append (xs ys : Dict) (k : String) :
    dget (xs ++ ys) k = (dget xs k <|> dget ys k) := by
  induction xs with
  | nil => simp [dget]
  | cons kv rest ih =>
      obtain ⟨a, w⟩ := kv
      by_cases hak : a = k
      · simp [dget, hak]
      · simp [dget, hak, ih]

theorem dget_dmerge (b a : Dict) (k : String) :
    dget (dmerge a b) k = (dget b.reverse k <|> dget a k) := by
  induction b generalizing a with
  | nil => simp [dmerge, dget]
  | cons kv rest ih =>
      obtain ⟨k0, v0⟩ := kv
      show dget (dmerge (dset a k0 v0) rest) k = _
      rw [ih, List.reverse_cons, dget_append, dget_dset]
      cases hr : dget rest.reverse k with
      | some v => rfl
      | none =>
          simp only [Option.none_orElse]
          by_cases hk : k = k0
          · subst hk; simp [dget]
          · simp [dget, hk, Ne.symm hk]

theorem dget_eq_none_of_not_mem (d : Dict) (k : String)
    (h : ∀ kv ∈ d, kv.1 ≠ k) : dget d k = none := by
  induction d with
  | nil => rfl
  | cons kv rest ih =>
      obtain ⟨a, w⟩ := kv
      have ha : a ≠ k := h (a, w) (by simp)
      simp only [dget, if_neg ha]
      exact ih (fun kv hm => h kv (by simp [hm]))

theorem dget_isSome_iff (d : Dict) (k : String) :
    (dget d k).isSome = true ↔ ∃ kv ∈ d, kv.1 = k := by
  induction d with
  | nil => simp [dget]
  | cons kv rest ih =>
      obtain ⟨a, w⟩ := kv
      by_cases hak : a = k
      · subst hak
        simp [dget]
      · simp only [dget, if_neg hak, List.mem_cons]
        constructor
        · intro h
          obtain ⟨kv', hm, he⟩ := ih.1 h
          exact ⟨kv', Or.inr hm, he⟩
        · rintro ⟨kv', hm, he⟩
          rcases hm with h1 | h2
          · subst h1; exact absurd he hak
          · exact ih.2 ⟨kv', h2, he⟩

/-! ### `get_environment`

```python
def get_environment(project_name, ssm_params):
    r = sm.describe_domain(DomainId=...)
    del r["ResponseMetadata"]; del r["CreationTime"]; del r["LastModifiedTime"]
    r = \x7b**r, **r["DefaultUserSettings"]\x7d
    del r["DefaultUserSettings"]
    i = \x7b**r, **\x7bt["Key"]: t["Value"] for t in sm.list_tags(...)["Tags"]
               if t["Key"] in ["EnvironmentName", "EnvironmentType"]\x7d\x7d
    for p in ssm_params:
        try:
            i[p["VariableName"]] = ssm.get_parameter(
                Name=f"...-...-...")["Parameter"]["Value"]
        except:
            i[p["VariableName"]] = ""
    return i
```

The remote side is an `AwsEnv`: the `describe_domain` response, the tags of
the domain ARN, and the SSM parameter store as a partial map (`none` models
`get_parameter` raising). -/

structure Tag where
  key : String
  value : String
deriving DecidableEq

structure SsmParam where
  VariableName : String
  ParameterName : String
deriving DecidableEq

structure AwsEnv where
  domainResponse : Dict
  domainTags : List Tag
  ssmStore : String → Option String

/-- The f-string `f"\x7bi[EnvironmentName]\x7d-\x7bi[EnvironmentType]\x7d-\x7bp[ParameterName]\x7d"`. -/
def templatedName (en et pn : String) : String :=
  en ++ "-" ++ et ++ "-" ++ pn

/-- The membership test `t["Key"] in ["EnvironmentName", "EnvironmentType"]`. -/
def envTagPred (t : Tag) : Bool :=
  t.key == "EnvironmentName" || t.key == "EnvironmentType"

/-- The dictionary comprehension over the domain's tags, keeping only the
`EnvironmentName` and `EnvironmentType` tags. -/
def envTagDict (tags : List Tag) : Dict :=
  (tags.filter envTagPred).map (fun t => (t.key, Val.prim t.value))

/-- One iteration of the `for p in ssm_params` loop.  The whole parameter
fetch sits inside a bare `try/except`, so a missing `EnvironmentName` /
`EnvironmentType` key (a `KeyError` while building the f-string) or a failing
`get_parameter` call (`none` in the store) both store `""`. -/
def ssmStep (store : String → Option String) (acc : Dict) (p : SsmParam) :
    Dict :=
  let v :=
    match dget acc "EnvironmentName", dget acc "EnvironmentType" with
    | some (Val.prim en), some (Val.prim et) =>
        match store (templatedName en et p.ParameterName) with
        | some w => w
        | none => ""
    | _, _ => ""
  dset acc p.VariableName (Val.prim v)

/-- Everything in `get_environment` before the SSM loop: the three `del`
statements, flattening `DefaultUserSettings`, and merging the environment
tags.  `none` models the `KeyError` / `TypeError` raised when the response
has no `DefaultUserSettings` object. -/
def envBase (env : AwsEnv) : Option Dict :=
  match dget (ddel (ddel (ddel env.domainResponse "ResponseMetadata")
      "CreationTime") "LastModifiedTime") "DefaultUserSettings" with
  | some (Val.obj dus) =>
      some (dmerge
        (ddel (dmerge
          (ddel (ddel (ddel env.domainResponse "ResponseMetadata")
            "CreationTime") "LastModifiedTime") dus) "DefaultUserSettings")
        (envTagDict env.domainTags))
  | _ => none

/-- `get_environment`, given the remote environment. -/
def get_environment (env : AwsEnv) (ssm_params : List SsmParam) :
    Option Dict :=
  match envBase env with
  | some i => some (ssm_params.foldl (ssmStep env.ssmStore) i)
  | none => none

/-! ### Project-name setup cell

```python
project_id = sm.describe_project(ProjectName=project_name)['ProjectId']
model_package_group_name = f"\x7bproject_name\x7d-\x7bproject_id\x7d"
assert(len(project_name) <= 15)
prefix = f"\x7bproject_name\x7d-\x7bproject_id\x7d"
```
-/

/-- `model_package_group_name = f"\x7bproject_name\x7d-\x7bproject_id\x7d"`. -/
def model_package_group_name (project_name project_id : String) : String :=
  project_name ++ "-" ++ project_id

/-- The notebook variable `prefix = f"\x7bproject_name\x7d-\x7bproject_id\x7d"`
(`pfx` because `prefix` is reserved in Lean). -/
def pfx (project_name project_id : String) : String :=
  project_name ++ "-" ++ project_id

/-- The setup cell: computes the model package group name and the S3 prefix,
raising `AssertionError` when `len(project_name) > 15`. -/
def setupNames (project_name project_id : String) :
    Except String (String × String) :=
  if project_name.length ≤ 15 then
    Except.ok (model_package_group_name project_name project_id,
      pfx project_name project_id)
  else
    Except.error "AssertionError"

/-- `pipeline_name = f"\x7bprefix\x7d-IrisPipeline"`. -/
def pipeline_name (project_name project_id : String) : String :=
  pfx project_name project_id ++ "-IrisPipeline"

/-- `code_pipeline_name = f"sagemaker-\x7bproject_name\x7d-\x7bproject_id\x7d-modeldeploy"`. -/
def code_pipeline_name (project_name project_id : String) : String :=
  "sagemaker-" ++ project_name ++ "-" ++ project_id ++ "-modeldeploy"

/-! ### Model package selection and approval

```python
model_packages = []
for p in sm.get_paginator('list_model_packages').paginate(
        ModelPackageGroupName=..., SortBy="CreationTime", SortOrder="Descending"):
    model_packages.extend(p["ModelPackageSummaryList"])
if len(model_packages) == 0:
    raise Exception(f"No model package is found for ... model package group")
latest_model_package_arn = model_packages[0]["ModelPackageArn"]
...
sm.update_model_package(ModelPackageArn=latest_model_package_arn,
                        ModelApprovalStatus="Approved")
```

The paginator's successive responses are the input `pages`; the service's
`SortBy=CreationTime, SortOrder=Descending` contract appears as a sortedness
hypothesis in the theorems. -/

structure ModelPackageSummary where
  ModelPackageArn : String
  CreationTime : Int
deriving DecidableEq

/-- The `model_packages.extend(...)` accumulation loop over the pages. -/
def collectModelPackages (pages : List (List ModelPackageSummary)) :
    List ModelPackageSummary :=
  pages.foldl (fun acc p => acc ++ p) []

/-- The selection cell: raises when the accumulated list is empty, otherwise
returns `model_packages[0]["ModelPackageArn"]`. -/
def selectLatestModelPackage (group : String)
    (pages : List (List ModelPackageSummary)) : Except String String :=
  match collectModelPackages pages with
  | [] => Except.error
      ("No model package is found for " ++ group ++ " model package group")
  | m :: _ => Except.ok m.ModelPackageArn

structure UpdateModelPackageCall where
  ModelPackageArn : String
  ModelApprovalStatus : String
deriving DecidableEq

/-- Selection followed by the single `update_model_package` call; the result
is the list of update calls issued. -/
def approveLatestCalls (group : String)
    (pages : List (List ModelPackageSummary)) :
    Except String (List UpdateModelPackageCall) :=
  match selectLatestModelPackage group pages with
  | Except.error e => Except.error e
  | Except.ok arn => Except.ok [⟨arn, "Approved"⟩]

/-! ### CodePipeline polling loops

```python
while len([a for a in [s for s in cp.get_pipeline_state(name=...)["stageStates"]
                       if s["stageName"] == "DeployModelStaging"][0]["actionStates"]
           if a["actionName"] == "ApproveStagingDeployment"
              and a.get("latestExecution")
              and a.get("latestExecution")["status"] == "InProgress"]) == 0:
    print("waiting...")
    time.sleep(20)
```

and the analogous loop for `DeployModelProd` / `DeployProd` / `"Succeeded"`.
Each `get_pipeline_state` poll observes a fresh remote state, so the loop is
run against the sequence of states the service returns. -/

structure ActionExecution where
  status : String
deriving DecidableEq

structure ActionState where
  actionName : String
  latestExecution : Option ActionExecution
deriving DecidableEq

structure StageState where
  stageName : String
  actionStates : List ActionState
deriving DecidableEq

/-- `stageStates` of one `get_pipeline_state` response. -/
abbrev PipelineState := List StageState

/-- `[s for s in stageStates if s["stageName"] == stage][0]["actionStates"]`;
`none` models the `IndexError` when the stage is absent. -/
def firstStageActions (st : PipelineState) (stage : String) :
    Option (List ActionState) :=
  match st.filter (fun s => s.stageName == stage) with
  | [] => none
  | s :: _ => some s.actionStates

/-- The per-action test in the loop condition:
`a["actionName"] == aname and a.get("latestExecution")
 and a.get("latestExecution")["status"] == sstatus`. -/
def actionPred (aname sstatus : String) (a : ActionState) : Bool :=
  a.actionName == aname &&
    (match a.latestExecution with
     | some e => e.status == sstatus
     | none => false)

/-- The filter in the loop condition. -/
def matchingActions (acts : List ActionState) (aname sstatus : String) :
    List ActionState :=
  acts.filter (actionPred aname sstatus)

/-- The length the loop condition compares with `0`; `none` models the
`IndexError` raised while evaluating it. -/
def loopCount (st : PipelineState) (stage aname sstatus : String) :
    Option Nat :=
  match firstStageActions st stage with
  | none => none
  | some acts => some (matchingActions acts aname sstatus).length

/-- Observable events of one polling loop. -/
inductive WaitEv where
  | poll
  | sleep (secs : Nat)
deriving DecidableEq

/-- The `while` loop run against the successive polled states: polls, sleeps
20 seconds while the count is `0`, and exits the first time it is nonzero.
`none` means the loop either raised (`IndexError`) or was still running when
the supplied observations ran out. -/
def waitLoop (stage aname sstatus : String) :
    List PipelineState → Option (List WaitEv)
  | [] => none
  | st :: rest =>
      match loopCount st stage aname sstatus with
      | none => none
      | some n =>
          if n = 0 then
            match waitLoop stage aname sstatus rest with
            | none => none
            | some evs => some (WaitEv.poll :: WaitEv.sleep 20 :: evs)
          else
            some [WaitEv.poll]

/-- Trace of a loop that slept `k` times before exiting. -/
def waitTrace : Nat → List WaitEv
  | 0 => [WaitEv.poll]
  | k + 1 => WaitEv.poll :: WaitEv.sleep 20 :: waitTrace k

/-- The staging loop. -/
def stagingWait (states : List PipelineState) : Option (List WaitEv) :=
  waitLoop "DeployModelStaging" "ApproveStagingDeployment" "InProgress" states

/-- The production loop. -/
def prodWait (states : List PipelineState) : Option (List WaitEv) :=
  waitLoop "DeployModelProd" "DeployProd" "Succeeded" states

/-- The exit condition as a proposition: the named action in the named stage
has a `latestExecution` whose `status` equals the literal. -/
def actionStatusMatches (st : PipelineState) (stage aname sstatus : String) :
    Prop :=
  ∃ acts, firstStageActions st stage = some acts ∧
    ∃ a ∈ acts, a.actionName = aname ∧
      ∃ e, a.latestExecution = some e ∧ e.status = sstatus

/-! ### Clean-up cell

```python
for ss in [f"sagemaker-\x7bproject_name\x7d-\x7bproject_id\x7d-deploy-\x7b...StagingName\x7d",
           f"sagemaker-\x7bproject_name\x7d-\x7bproject_id\x7d-deploy-\x7b...ProdName\x7d"]:
    accounts = [a["Account"] for a in cf.list_stack_instances(StackSetName=ss)["Summaries"]]
    r = cf.delete_stack_instances(StackSetName=ss, Accounts=accounts,
                                  Regions=[...], RetainStacks=False)
    time.sleep(180)
    r = cf.delete_stack_set(StackSetName=ss)
```
-/

inductive CfnEvent where
  | listStackInstances (stackSetName : String)
  | deleteStackInstances (stackSetName : String) (accounts : List String)
      (retainStacks : Bool)
  | sleepSecs (n : Nat)
  | deleteStackSet (stackSetName : String)
deriving DecidableEq

/-- The two stack set names, staging first, production second. -/
def stackSetNames (project_name project_id stagingType prodType : String) :
    List String :=
  ["sagemaker-" ++ project_name ++ "-" ++ project_id ++ "-deploy-" ++
      stagingType,
   "sagemaker-" ++ project_name ++ "-" ++ project_id ++ "-deploy-" ++
      prodType]

/-- One iteration of the clean-up loop; `instanceAccounts ss` is the list of
accounts that currently have an instance of stack set `ss`, as returned by
`list_stack_instances`. -/
def cleanupStackSet (instanceAccounts : String → List String) (ss : String) :
    List CfnEvent :=
  [CfnEvent.listStackInstances ss,
   CfnEvent.deleteStackInstances ss (instanceAccounts ss) false,
   CfnEvent.sleepSecs 180,
   CfnEvent.deleteStackSet ss]

/-- The full clean-up trace over both stack sets. -/
def cleanupTrace (project_name project_id stagingType prodType : String)
    (instanceAccounts : String → List String) : List CfnEvent :=
  ((stackSetNames project_name project_id stagingType prodType).map
    (cleanupStackSet instanceAccounts)).flatten

/-! ### Supporting lemmas -/

theorem orElse_none_left (x : Option Val) : (none <|> x) = x := rfl

theorem orElse_some_left (v : Val) (x : Option Val) :
    (some v <|> x) = some v := rfl

/-- The value the Python dictionary comprehension ends up associating with a
key: the last tag in the list carrying that key. -/
def lastTag (tags : List Tag) (k : String) : Option String :=
  (tags.reverse.find? (fun t => t.key == k)).map Tag.value

theorem dget_envTagDict_list (l : List Tag) (k : String)
    (hk : k = "EnvironmentName" ∨ k = "EnvironmentType") :
    dget ((l.filter envTagPred).map (fun t => (t.key, Val.prim t.value))) k
      = (l.find? (fun t => t.key == k)).map (fun t => Val.prim t.value) := by
  induction l with
  | nil => rfl
  | cons t l' ih =>
      by_cases ht : t.key = k
      · have hp : envTagPred t = true := by
          rcases hk with h | h <;> simp [envTagPred, ht, h]
        rw [List.filter_cons_of_pos hp, List.map_cons,
          List.find?_cons_of_pos _ (by simp [ht])]
        simp [dget, ht]
      · rw [List.find?_cons_of_neg _ (by simp [ht])]
        by_cases hp : envTagPred t = true
        · rw [List.filter_cons_of_pos hp, List.map_cons]
          simp only [dget, if_neg ht]
          exact ih
        · rw [List.filter_cons_of_neg hp]
          exact ih

theorem dget_envTagDict_reverse (tags : List Tag) (k : String)
    (hk : k = "EnvironmentName" ∨ k = "EnvironmentType") :
    dget (envTagDict tags).reverse k
      = (lastTag tags k).map Val.prim := by
  unfold envTagDict lastTag
  rw [← List.map_reverse, ← List.filter_reverse,
    dget_envTagDict_list tags.reverse k hk, Option.map_map]
  rfl

theorem dget_envTagDict_other (tags : List Tag) (k : String)
    (h1 : k ≠ "EnvironmentName") (h2 : k ≠ "EnvironmentType") :
    dget (envTagDict tags).reverse k = none := by
  apply dget_eq_none_of_not_mem
  intro kv hm
  rw [List.mem_reverse] at hm
  unfold envTagDict at hm
  obtain ⟨t, htm, rfl⟩ := List.mem_map.mp hm
  have hor : t.key = "EnvironmentName" ∨ t.key = "EnvironmentType" := by
    simpa [envTagPred] using (List.mem_filter.mp htm).2
  intro he
  have he' : t.key = k := he
  rcases hor with h | h
  · exact h1 (he'.symm.trans h)
  · exact h2 (he'.symm.trans h)

/-- The keys the tag comprehension contributes. -/
theorem hasKey_envTagDict (tags : List Tag) (k : String) :
    hasKey (envTagDict tags) k = true ↔
      (k = "EnvironmentName" ∨ k = "EnvironmentType")
        ∧ ∃ t ∈ tags, t.key = k := by
  unfold hasKey
  rw [dget_isSome_iff]
  unfold envTagDict
  constructor
  · rintro ⟨kv, hm, hk⟩
    obtain ⟨t, htm, rfl⟩ := List.mem_map.mp hm
    obtain ⟨htags, hf⟩ := List.mem_filter.mp htm
    have hk' : t.key = k := hk
    have hor : t.key = "EnvironmentName" ∨ t.key = "EnvironmentType" := by
      simpa [envTagPred] using hf
    rcases hor with h | h
    · exact ⟨Or.inl (hk'.symm.trans h), t, htags, hk'⟩
    · exact ⟨Or.inr (hk'.symm.trans h), t, htags, hk'⟩
  · rintro ⟨hor, t, htags, hk⟩
    refine ⟨(t.key, Val.prim t.value), List.mem_map.mpr
      ⟨t, List.mem_filter.mpr ⟨htags, ?_⟩, rfl⟩, hk⟩
    rcases hor with h | h <;> simp [envTagPred, hk, h]

/-- A step of the SSM loop leaves every key other than the one it writes
unchanged. -/
theorem foldl_ssmStep_dget_ne (store : String → Option String)
    (ps : List SsmParam) (k : String)
    (h : ∀ q ∈ ps, q.VariableName ≠ k) :
    ∀ i : Dict, dget (ps.foldl (ssmStep store) i) k = dget i k := by
  induction ps with
  | nil => intro i; rfl
  | cons q ps' ih =>
      intro i
      rw [List.foldl_cons, ih (fun r hr => h r (by simp [hr]))]
      show dget (dset i q.VariableName _) k = dget i k
      rw [dget_dset, if_neg (fun he => h q (by simp) he.symm)]

/-- The SSM loop never deletes a key. -/
theorem foldl_ssmStep_hasKey (store : String → Option String)
    (ps : List SsmParam) (k : String) :
    ∀ i : Dict, hasKey i k = true →
      hasKey (ps.foldl (ssmStep store) i) k = true := by
  induction ps with
  | nil => intro i h; exact h
  | cons q ps' ih =>
      intro i h
      rw [List.foldl_cons]
      apply ih
      show hasKey (dset i q.VariableName _) k = true
      rw [hasKey, dget_dset]
      by_cases hk : k = q.VariableName
      · rw [if_pos hk]; rfl
      · rw [if_neg hk]; exact h

/-- The `EnvironmentName` / `EnvironmentType` value `get_environment`
returns comes from the last matching domain tag, no matter what the domain
response contained under that key. -/
theorem dget_envBase_tag (env : AwsEnv) (i : Dict) (k v : String)
    (hk : k = "EnvironmentName" ∨ k = "EnvironmentType")
    (hb : envBase env = some i)
    (ht : lastTag env.domainTags k = some v) :
    dget i k = some (Val.prim v) := by
  unfold envBase at hb
  split at hb
  case h_1 dus heq =>
      obtain rfl : _ = i := Option.some.inj hb
      rw [dget_dmerge, dget_envTagDict_reverse env.domainTags k hk, ht]
      rfl
  case h_2 => cases hb

/-- When the accumulator carries primitive `EnvironmentName` /
`EnvironmentType` entries and the parameter store has a value under the
templated name, the loop stores exactly that value under `VariableName`. -/
theorem foldl_ssmStep_fetch (store : String → Option String)
    (p : SsmParam) (en et v : String)
    (hv : store (templatedName en et p.ParameterName) = some v) :
    ∀ (ps : List SsmParam) (i : Dict), p ∈ ps →
      (ps.map SsmParam.VariableName).Nodup →
      (∀ q ∈ ps, q.VariableName ≠ "EnvironmentName"
        ∧ q.VariableName ≠ "EnvironmentType") →
      dget i "EnvironmentName" = some (Val.prim en) →
      dget i "EnvironmentType" = some (Val.prim et) →
      dget (ps.foldl (ssmStep store) i) p.VariableName
        = some (Val.prim v) := by
  intro ps
  induction ps with
  | nil => intro i hmem; cases hmem
  | cons q ps' ih =>
      intro i hmem hnd hvars hen het
      have hnd' : q.VariableName ∉ ps'.map SsmParam.VariableName
          ∧ (ps'.map SsmParam.VariableName).Nodup := by
        simpa using hnd
      rw [List.foldl_cons]
      rcases List.mem_cons.mp hmem with rfl | hmem'
      · rw [foldl_ssmStep_dget_ne]
        · simp only [ssmStep, hen, het, hv, dget_dset, if_pos rfl]
          simp
        · intro r hr he
          exact hnd'.1 (he ▸ List.mem_map_of_mem SsmParam.VariableName hr)
      · refine ih _ hmem' hnd'.2 (fun r hr => hvars r (by simp [hr])) ?_ ?_
        · show dget (dset i q.VariableName _) "EnvironmentName" = _
          rw [dget_dset,
            if_neg (fun he => (hvars q (by simp)).1 he.symm)]
          exact hen
        · show dget (dset i q.VariableName _) "EnvironmentType" = _
          rw [dget_dset,
            if_neg (fun he => (hvars q (by simp)).2 he.symm)]
          exact het

/-- When the store fails (the SDK call raises), the bare `except` stores the
empty string. -/
theorem ssmStep_fail (store : String → Option String)
    (hfail : ∀ n, store n = none) (i : Dict) (q : SsmParam) :
    ssmStep store i q = dset i q.VariableName (Val.prim "") := by
  unfold ssmStep
  cases hen : dget i "EnvironmentName" with
  | none => rfl
  | some v =>
      cases v with
      | obj o => rfl
      | prim en =>
          cases het : dget i "EnvironmentType" with
          | none => rfl
          | some w =>
              cases w with
              | obj o => rfl
              | prim et =>
                  dsimp only
                  rw [hfail]

theorem foldl_ssmStep_fail (store : String → Option String)
    (hfail : ∀ n, store n = none) (p : SsmParam) :
    ∀ (ps : List SsmParam) (i : Dict), p ∈ ps →
      (ps.map SsmParam.VariableName).Nodup →
      dget (ps.foldl (ssmStep store) i) p.VariableName
        = some (Val.prim "") := by
  intro ps
  induction ps with
  | nil => intro i hmem; cases hmem
  | cons q ps' ih =>
      intro i hmem hnd
      have hnd' : q.VariableName ∉ ps'.map SsmParam.VariableName
          ∧ (ps'.map SsmParam.VariableName).Nodup := by
        simpa using hnd
      rw [List.foldl_cons]
      rcases List.mem_cons.mp hmem with rfl | hmem'
      · rw [foldl_ssmStep_dget_ne]
        · rw [ssmStep_fail store hfail, dget_dset, if_pos rfl]
        · intro r hr he
          exact hnd'.1 (he ▸ List.mem_map_of_mem SsmParam.VariableName hr)
      · exact ih _ hmem' hnd'.2

/-! ### Wait-loop lemmas -/

theorem actionPred_iff (a : ActionState) (aname sstatus : String) :
    actionPred aname sstatus a = true ↔
      a.actionName = aname ∧
        ∃ e, a.latestExecution = some e ∧ e.status = sstatus := by
  unfold actionPred
  cases hle : a.latestExecution with
  | none => simp
  | some e => simp

theorem actionStatusMatches_iff (st : PipelineState)
    (stage aname sstatus : String) :
    actionStatusMatches st stage aname sstatus ↔
      ∃ n, loopCount st stage aname sstatus = some n ∧ 0 < n := by
  unfold actionStatusMatches loopCount
  cases hf : firstStageActions st stage with
  | none => simp
  | some acts =>
      constructor
      · rintro ⟨acts', ha', a, hmem, hname, e, hle, hst⟩
        obtain rfl : acts = acts' := Option.some.inj ha'
        refine ⟨(matchingActions acts aname sstatus).length, rfl, ?_⟩
        rw [List.length_pos_iff_exists_mem]
        exact ⟨a, List.mem_filter.mpr ⟨hmem,
          (actionPred_iff a aname sstatus).mpr ⟨hname, e, hle, hst⟩⟩⟩
      · rintro ⟨n, hn, hpos⟩
        obtain rfl : (matchingActions acts aname sstatus).length = n :=
          Option.some.inj hn
        obtain ⟨a, ha⟩ := List.length_pos_iff_exists_mem.mp hpos
        obtain ⟨hmem, hpred⟩ := List.mem_filter.mp ha
        obtain ⟨hname, e, hle, hst⟩ :=
          (actionPred_iff a aname sstatus).mp hpred
        exact ⟨acts, rfl, a, hmem, hname, e, hle, hst⟩

/-- Soundness and completeness of the polling loop: it returns a trace
exactly when the polled state sequence decomposes into a prefix on which the
exit condition fails (without raising) followed by a state on which it
holds, and the trace is then `poll (sleep 20 poll)*` with one sleep per
failed poll. -/
theorem waitLoop_spec (stage aname sstatus : String)
    (states : List PipelineState) (tr : List WaitEv) :
    waitLoop stage aname sstatus states = some tr ↔
      ∃ pre st post, states = pre ++ st :: post
        ∧ (∀ s ∈ pre, ¬ actionStatusMatches s stage aname sstatus
            ∧ (loopCount s stage aname sstatus).isSome = true)
        ∧ actionStatusMatches st stage aname sstatus
        ∧ tr = waitTrace pre.length := by
  induction states generalizing tr with
  | nil =>
      constructor
      · intro h
        simp [waitLoop] at h
      · rintro ⟨pre, st, post, habs, -⟩
        cases pre <;> simp at habs
  | cons st0 rest ih =>
      constructor
      · intro h
        unfold waitLoop at h
        cases hc : loopCount st0 stage aname sstatus with
        | none => rw [hc] at h; cases h
        | some n =>
            simp only [hc] at h
            by_cases hn : n = 0
            · rw [if_pos hn] at h
              cases hrest : waitLoop stage aname sstatus rest with
              | none => simp only [hrest] at h; cases h
              | some evs =>
                  simp only [hrest] at h
                  obtain rfl : WaitEv.poll :: WaitEv.sleep 20 :: evs = tr :=
                    Option.some.inj h
                  obtain ⟨pre', st, post, heq, hpre, hst, htr⟩ :=
                    (ih evs).mp hrest
                  refine ⟨st0 :: pre', st, post,
                    by rw [heq, List.cons_append], ?_, hst, ?_⟩
                  · intro s hs
                    rcases List.mem_cons.mp hs with rfl | hs'
                    · refine ⟨?_, by rw [hc]; rfl⟩
                      intro hm
                      obtain ⟨n', hn', hp'⟩ :=
                        (actionStatusMatches_iff s stage aname sstatus).mp hm
                      rw [hc] at hn'
                      obtain rfl : n = n' := Option.some.inj hn'
                      omega
                    · exact hpre s hs'
                  · rw [htr]; rfl
            · rw [if_neg hn] at h
              obtain rfl : [WaitEv.poll] = tr := Option.some.inj h
              refine ⟨[], st0, rest, rfl, by simp, ?_, rfl⟩
              exact (actionStatusMatches_iff st0 stage aname sstatus).mpr
                ⟨n, hc, Nat.pos_of_ne_zero hn⟩
      · rintro ⟨pre, st, post, heq, hpre, hst, htr⟩
        cases pre with
        | nil =>
            obtain ⟨h1, h2⟩ : st0 = st ∧ rest = post := by simpa using heq
            obtain ⟨n, hc, hp⟩ :=
              (actionStatusMatches_iff st stage aname sstatus).mp hst
            unfold waitLoop
            rw [h1]
            simp only [hc]
            rw [if_neg (Nat.pos_iff_ne_zero.mp hp), htr]
            rfl
        | cons p0 pre' =>
            have hsplit : st0 = p0 ∧ rest = pre' ++ st :: post := by
              simpa using heq
            have h0 := hpre p0 (by simp)
            cases hc : loopCount p0 stage aname sstatus with
            | none =>
                have h2 := h0.2
                rw [hc] at h2
                simp at h2
            | some n =>
                have hn : n = 0 := by
                  by_contra hn
                  exact h0.1 ((actionStatusMatches_iff p0 stage aname
                    sstatus).mpr ⟨n, hc, Nat.pos_of_ne_zero hn⟩)
                have hrest : waitLoop stage aname sstatus rest
                    = some (waitTrace pre'.length) :=
                  (ih (waitTrace pre'.length)).mpr
                    ⟨pre', st, post, hsplit.2,
                      fun s hs => hpre s (by simp [hs]), hst, rfl⟩
                unfold waitLoop
                rw [hsplit.1]
                simp only [hc]
                rw [if_pos hn]
                simp only [hrest]
                rw [htr]
                rfl

/-! ### Concrete sample inputs

A small concrete remote environment used to evaluate the definitions in the
witness theorems: a `describe_domain` response with the metadata fields and a
one-entry `DefaultUserSettings`, the two environment tags, and a parameter
store holding (or failing to hold) the data bucket name. -/

def sampleResponse : Dict :=
  [("DomainArn", Val.prim "arn:aws:sagemaker:eu-west-1:111:domain/d-123"),
   ("DomainId", Val.prim "d-123"),
   ("ResponseMetadata", Val.prim "meta"),
   ("CreationTime", Val.prim "2021-06-01"),
   ("LastModifiedTime", Val.prim "2021-06-02"),
   ("DefaultUserSettings",
     Val.obj [("ExecutionRole", Val.prim "arn:aws:iam::111:role/exec")])]

def sampleTags : List Tag :=
  [⟨"EnvironmentName", "myenv"⟩, ⟨"EnvironmentType", "dev"⟩]

/-- The dictionary `envBase` produces from `sampleResponse` / `sampleTags`. -/
def sampleBase : Dict :=
  [("DomainArn", Val.prim "arn:aws:sagemaker:eu-west-1:111:domain/d-123"),
   ("DomainId", Val.prim "d-123"),
   ("ExecutionRole", Val.prim "arn:aws:iam::111:role/exec"),
   ("EnvironmentName", Val.prim "myenv"),
   ("EnvironmentType", Val.prim "dev")]

def sampleOkEnv : AwsEnv :=
  ⟨sampleResponse, sampleTags,
    fun n => if n = "myenv-dev-data-bucket-name"
      then some "myenv-dev-data-bucket" else none⟩

def sampleFailEnv : AwsEnv :=
  ⟨sampleResponse, sampleTags, fun _ => none⟩

def sampleParams : List SsmParam :=
  [⟨"DataBucketName", "data-bucket-name"⟩]

/-! ### Claim theorems -/

/-- C1: the model-approval step raises a generic exception if and only if
the list of model packages accumulated from paginating
`list_model_packages` is empty; when it is non-empty no exception is raised
and the first package's ARN is selected. -/
theorem C1_raise_iff_no_model_package (group : String)
    (pages : List (List ModelPackageSummary)) :
    ((∃ e, selectLatestModelPackage group pages = Except.error e)
      ↔ collectModelPackages pages = [])
    ∧ ∀ m rest, collectModelPackages pages = m :: rest →
        selectLatestModelPackage group pages
          = Except.ok m.ModelPackageArn := by
  refine ⟨⟨?_, ?_⟩, ?_⟩
  · rintro ⟨e, he⟩
    unfold selectLatestModelPackage at he
    cases hc : collectModelPackages pages with
    | nil => rfl
    | cons m r =>
        simp only [hc] at he
        cases he
  · intro hc
    unfold selectLatestModelPackage
    simp only [hc]
    exact ⟨_, rfl⟩
  · intro m rest hc
    unfold selectLatestModelPackage
    simp only [hc]

/-- Witness for C1 at concrete pages: two pages with one package each, and
an all-empty pagination. -/
theorem C1_raise_iff_no_model_package_witness :
    selectLatestModelPackage "proj-p-1"
        [[⟨"arn:mp/2", 5⟩], [⟨"arn:mp/1", 3⟩]]
      = Except.ok "arn:mp/2"
    ∧ ∃ e, selectLatestModelPackage "proj-p-1" [[], []]
        = Except.error e :=
  ⟨(C1_raise_iff_no_model_package "proj-p-1" _).2 ⟨"arn:mp/2", 5⟩
      [⟨"arn:mp/1", 3⟩] rfl,
   (C1_raise_iff_no_model_package "proj-p-1" [[], []]).1.mpr rfl⟩

/-- C4 as stated is refuted: the setup cell contains
`assert(len(project_name) <= 15)`, so a 16-character project name makes
execution fail on a check of the name, contradicting "execution performs no
check on the name and does not fail because of it". -/
theorem C4_counterexample :
    setupNames "sixteen-chars-xx" "p-abc123"
      = Except.error "AssertionError" := rfl

/-- C4 amended: the pipeline name and model package ARN are never validated
or transformed, but the project name is: the setup cell asserts
`len(project_name) <= 15`, succeeding untransformed exactly when the length
is at most 15 and raising `AssertionError` otherwise. -/
theorem C4_project_name_length_check (project_name project_id : String) :
    (project_name.length ≤ 15 →
      setupNames project_name project_id
        = Except.ok (project_name ++ "-" ++ project_id,
            project_name ++ "-" ++ project_id))
    ∧ (15 < project_name.length →
      setupNames project_name project_id
        = Except.error "AssertionError") := by
  constructor
  · intro h
    unfold setupNames
    rw [if_pos h]
    rfl
  · intro h
    unfold setupNames
    rw [if_neg (Nat.not_le.mpr h)]

/-- Witness for C4's amended claim at a short and a long name. -/
theorem C4_project_name_length_check_witness :
    setupNames "iris-project" "p-abc123"
      = Except.ok ("iris-project-p-abc123", "iris-project-p-abc123")
    ∧ setupNames "a-very-long-project-name" "p-abc123"
      = Except.error "AssertionError" :=
  ⟨(C4_project_name_length_check "iris-project" "p-abc123").1 (by decide),
   (C4_project_name_length_check "a-very-long-project-name" "p-abc123").2
     (by decide)⟩

/-- C6: the model package group name, SageMaker pipeline name and
CodePipeline name are produced from the project name and project id by pure
string templating. -/
theorem C6_resource_name_templating (project_name project_id : String) :
    model_package_group_name project_name project_id
        = project_name ++ "-" ++ project_id
    ∧ pipeline_name project_name project_id
        = project_name ++ "-" ++ project_id ++ "-IrisPipeline"
    ∧ code_pipeline_name project_name project_id
        = "sagemaker-" ++ project_name ++ "-" ++ project_id
            ++ "-modeldeploy" :=
  ⟨rfl, rfl, rfl⟩

/-- C7: with the listing sorted by CreationTime descending (the service
contract for `SortBy="CreationTime", SortOrder="Descending"`), the approval
step issues exactly one `update_model_package` call, on the first listed
package - one of maximal CreationTime - with status `Approved`. -/
theorem C7_approve_latest_once (group : String)
    (pages : List (List ModelPackageSummary))
    (calls : List UpdateModelPackageCall)
    (hsorted : (collectModelPackages pages).Pairwise
      (fun a b => b.CreationTime ≤ a.CreationTime))
    (hok : approveLatestCalls group pages = Except.ok calls) :
    ∃ m rest, collectModelPackages pages = m :: rest
      ∧ calls = [⟨m.ModelPackageArn, "Approved"⟩]
      ∧ ∀ m' ∈ collectModelPackages pages,
          m'.CreationTime ≤ m.CreationTime := by
  unfold approveLatestCalls selectLatestModelPackage at hok
  cases hc : collectModelPackages pages with
  | nil =>
      simp only [hc] at hok
      cases hok
  | cons m rest =>
      simp only [hc] at hok
      obtain rfl := Except.ok.inj hok
      refine ⟨m, rest, rfl, rfl, ?_⟩
      intro m' hm'
      rw [hc] at hsorted
      rcases List.mem_cons.mp hm' with rfl | hm2
      · exact le_refl _
      · exact (List.pairwise_cons.mp hsorted).1 m' hm2

/-- Witness for C7 on a concrete two-package listing. -/
theorem C7_approve_latest_once_witness :
    ∃ m rest,
      collectModelPackages [[⟨"arn:mp/2", 5⟩, ⟨"arn:mp/1", 3⟩]]
        = m :: rest
      ∧ ([⟨"arn:mp/2", "Approved"⟩] : List UpdateModelPackageCall)
          = [⟨m.ModelPackageArn, "Approved"⟩]
      ∧ ∀ m' ∈ collectModelPackages [[⟨"arn:mp/2", 5⟩, ⟨"arn:mp/1", 3⟩]],
          m'.CreationTime ≤ m.CreationTime :=
  C7_approve_latest_once "proj-p-1" [[⟨"arn:mp/2", 5⟩, ⟨"arn:mp/1", 3⟩]]
    [⟨"arn:mp/2", "Approved"⟩] (by decide) rfl

/-- C9: the clean-up processes the staging stack set first and the
production stack set second; for each, `delete_stack_instances` runs with
`RetainStacks=False` over exactly the accounts currently holding an
instance, strictly before `delete_stack_set` on the same stack set. -/
theorem C9_cleanup_order (project_name project_id stagingType prodType :
    String) (instanceAccounts : String → List String) :
    (cleanupTrace project_name project_id stagingType prodType
        instanceAccounts
      = [CfnEvent.listStackInstances
           ("sagemaker-" ++ project_name ++ "-" ++ project_id
             ++ "-deploy-" ++ stagingType),
         CfnEvent.deleteStackInstances
           ("sagemaker-" ++ project_name ++ "-" ++ project_id
             ++ "-deploy-" ++ stagingType)
           (instanceAccounts ("sagemaker-" ++ project_name ++ "-"
             ++ project_id ++ "-deploy-" ++ stagingType)) false,
         CfnEvent.sleepSecs 180,
         CfnEvent.deleteStackSet
           ("sagemaker-" ++ project_name ++ "-" ++ project_id
             ++ "-deploy-" ++ stagingType),
         CfnEvent.listStackInstances
           ("sagemaker-" ++ project_name ++ "-" ++ project_id
             ++ "-deploy-" ++ prodType),
         CfnEvent.deleteStackInstances
           ("sagemaker-" ++ project_name ++ "-" ++ project_id
             ++ "-deploy-" ++ prodType)
           (instanceAccounts ("sagemaker-" ++ project_name ++ "-"
             ++ project_id ++ "-deploy-" ++ prodType)) false,
         CfnEvent.sleepSecs 180,
         CfnEvent.deleteStackSet
           ("sagemaker-" ++ project_name ++ "-" ++ project_id
             ++ "-deploy-" ++ prodType)])
    ∧ ∀ ss ∈ stackSetNames project_name project_id stagingType prodType,
        ∃ i j : Nat, i < j
          ∧ (cleanupTrace project_name project_id stagingType prodType
              instanceAccounts)[i]?
            = some (CfnEvent.deleteStackInstances ss
                (instanceAccounts ss) false)
          ∧ (cleanupTrace project_name project_id stagingType prodType
              instanceAccounts)[j]?
            = some (CfnEvent.deleteStackSet ss) := by
  refine ⟨rfl, ?_⟩
  intro ss hss
  rcases (by simpa [stackSetNames] using hss :
      ss = "sagemaker-" ++ project_name ++ "-" ++ project_id
          ++ "-deploy-" ++ stagingType
      ∨ ss = "sagemaker-" ++ project_name ++ "-" ++ project_id
          ++ "-deploy-" ++ prodType) with rfl | rfl
  · exact ⟨1, 3, by omega, rfl, rfl⟩
  · exact ⟨5, 7, by omega, rfl, rfl⟩

/-- Witness for C9 at a concrete project and account map. -/
theorem C9_cleanup_order_witness :
    ∃ i j : Nat, i < j
      ∧ (cleanupTrace "iris" "p-1" "staging" "prod"
          (fun _ => ["111111111111"]))[i]?
        = some (CfnEvent.deleteStackInstances
            "sagemaker-iris-p-1-deploy-staging" ["111111111111"] false)
      ∧ (cleanupTrace "iris" "p-1" "staging" "prod"
          (fun _ => ["111111111111"]))[j]?
        = some (CfnEvent.deleteStackSet
            "sagemaker-iris-p-1-deploy-staging") :=
  (C9_cleanup_order "iris" "p-1" "staging" "prod"
      (fun _ => ["111111111111"])).2
    "sagemaker-iris-p-1-deploy-staging" (by decide)

/-- C2 as stated is refuted: with a parameter store whose `get_parameter`
raises on every name (`none`), `get_environment` neither propagates the
exception nor fails - the bare `except:` catches it and stores `""` under
the variable name. -/
theorem C2_counterexample :
    sampleFailEnv.ssmStore "myenv-dev-data-bucket-name" = none
    ∧ get_environment sampleFailEnv sampleParams
        = some (sampleBase ++ [("DataBucketName", Val.prim "")]) :=
  ⟨rfl, rfl⟩

/-- C2 amended: apart from the no-model-package raise, the only other
structured error handling is the bare `try/except` wrapped around each
`ssm.get_parameter` call in `get_environment`: when the store raises on
every name, `get_environment` still succeeds and every requested variable
is bound to the empty string rather than the exception propagating. -/
theorem C2_ssm_exceptions_caught (env : AwsEnv) (ps : List SsmParam)
    (i : Dict) (p : SsmParam)
    (hbase : envBase env = some i)
    (hfail : ∀ n, env.ssmStore n = none)
    (hnd : (ps.map SsmParam.VariableName).Nodup)
    (hmem : p ∈ ps) :
    get_environment env ps = some (ps.foldl (ssmStep env.ssmStore) i)
    ∧ dget (ps.foldl (ssmStep env.ssmStore) i) p.VariableName
        = some (Val.prim "") := by
  constructor
  · unfold get_environment
    simp only [hbase]
  · exact foldl_ssmStep_fail env.ssmStore hfail p ps i hmem hnd

/-- Witness for C2's amended claim on the concrete failing environment. -/
theorem C2_ssm_exceptions_caught_witness :
    get_environment sampleFailEnv sampleParams
      = some (sampleParams.foldl (ssmStep sampleFailEnv.ssmStore)
          sampleBase)
    ∧ dget (sampleParams.foldl (ssmStep sampleFailEnv.ssmStore) sampleBase)
        "DataBucketName" = some (Val.prim "") :=
  C2_ssm_exceptions_caught sampleFailEnv sampleParams sampleBase
    ⟨"DataBucketName", "data-bucket-name"⟩ rfl (fun _ => rfl) (by decide)
    (by decide)

/-- C5: for each `\x7bVariableName, ParameterName\x7d` entry,
`get_environment` reads the parameter store under the templated name
`EnvironmentName ++ "-" ++ EnvironmentType ++ "-" ++ ParameterName`, with
`EnvironmentName` and `EnvironmentType` taken from the domain's tags, and
stores the fetched value in the result under `VariableName`. -/
theorem C5_ssm_parameter_lookup (env : AwsEnv) (ps : List SsmParam)
    (i : Dict) (p : SsmParam) (en et v : String)
    (hbase : envBase env = some i)
    (hen : lastTag env.domainTags "EnvironmentName" = some en)
    (het : lastTag env.domainTags "EnvironmentType" = some et)
    (hvars : ∀ q ∈ ps, q.VariableName ≠ "EnvironmentName"
      ∧ q.VariableName ≠ "EnvironmentType")
    (hnd : (ps.map SsmParam.VariableName).Nodup)
    (hmem : p ∈ ps)
    (hv : env.ssmStore (templatedName en et p.ParameterName) = some v) :
    ∃ out, get_environment env ps = some out
      ∧ dget out p.VariableName = some (Val.prim v) := by
  refine ⟨ps.foldl (ssmStep env.ssmStore) i, ?_, ?_⟩
  · unfold get_environment
    simp only [hbase]
  · exact foldl_ssmStep_fetch env.ssmStore p en et v hv ps i hmem hnd hvars
      (dget_envBase_tag env i "EnvironmentName" en (Or.inl rfl) hbase hen)
      (dget_envBase_tag env i "EnvironmentType" et (Or.inr rfl) hbase het)

/-- Witness for C5 on the concrete environment whose store holds the data
bucket name. -/
theorem C5_ssm_parameter_lookup_witness :
    ∃ out, get_environment sampleOkEnv sampleParams = some out
      ∧ dget out "DataBucketName"
          = some (Val.prim "myenv-dev-data-bucket") :=
  C5_ssm_parameter_lookup sampleOkEnv sampleParams sampleBase
    ⟨"DataBucketName", "data-bucket-name"⟩ "myenv" "dev"
    "myenv-dev-data-bucket" rfl rfl rfl (by decide) (by decide) (by decide)
    rfl

theorem isSome_orElse (x y : Option Val) (h : y.isSome = true) :
    (x <|> y).isSome = true := by
  cases x with
  | none => exact h
  | some v => rfl

theorem isSome_orElse_left (x y : Option Val) (h : x.isSome = true) :
    (x <|> y).isSome = true := by
  cases x with
  | none => cases h
  | some v => rfl

/-- A key that is neither an environment-tag key, nor a key of
`DefaultUserSettings`, nor a requested SSM variable, and that the three
`del` statements removed (or is `DefaultUserSettings` itself), is absent
from the final dictionary. -/
theorem dget_out_banned (env : AwsEnv) (ps : List SsmParam) (dus : Dict)
    (bk : String)
    (h1 : bk ≠ "EnvironmentName") (h2 : bk ≠ "EnvironmentType")
    (hdel : dget (ddel (ddel (ddel env.domainResponse "ResponseMetadata")
        "CreationTime") "LastModifiedTime") bk = none
      ∨ bk = "DefaultUserSettings")
    (hdus2 : ∀ kv ∈ dus, kv.1 ≠ bk)
    (hps2 : ∀ q ∈ ps, q.VariableName ≠ bk) :
    dget (ps.foldl (ssmStep env.ssmStore)
      (dmerge (ddel (dmerge (ddel (ddel (ddel env.domainResponse
        "ResponseMetadata") "CreationTime") "LastModifiedTime") dus)
        "DefaultUserSettings") (envTagDict env.domainTags))) bk = none := by
  rw [foldl_ssmStep_dget_ne env.ssmStore ps bk hps2,
    dget_dmerge, dget_envTagDict_other env.domainTags bk h1 h2,
    orElse_none_left, dget_ddel]
  by_cases hd : bk = "DefaultUserSettings"
  · rw [if_pos hd]
  · rw [if_neg hd, dget_dmerge,
      dget_eq_none_of_not_mem dus.reverse bk
        (fun kv hm => hdus2 kv (List.mem_reverse.mp hm)),
      orElse_none_left]
    rcases hdel with h | h
    · exact h
    · exact absurd h hd

/-- C8: the dictionary `get_environment` returns contains none of
`ResponseMetadata`, `CreationTime`, `LastModifiedTime`,
`DefaultUserSettings`; every key of `DefaultUserSettings` appears flattened
at the top level; and of the domain's tags only `EnvironmentName` and
`EnvironmentType` are merged (assuming, per the AWS response schema and the
notebook's parameter list, that neither the `DefaultUserSettings` keys nor
the requested variable names collide with the four deleted keys). -/
theorem C8_get_environment_keys (env : AwsEnv) (ps : List SsmParam)
    (out : Dict) (dus : Dict)
    (hdus : dget env.domainResponse "DefaultUserSettings"
      = some (Val.obj dus))
    (hduskeys : ∀ kv ∈ dus, kv.1 ≠ "ResponseMetadata"
      ∧ kv.1 ≠ "CreationTime" ∧ kv.1 ≠ "LastModifiedTime"
      ∧ kv.1 ≠ "DefaultUserSettings")
    (hpskeys : ∀ q ∈ ps, q.VariableName ≠ "ResponseMetadata"
      ∧ q.VariableName ≠ "CreationTime"
      ∧ q.VariableName ≠ "LastModifiedTime"
      ∧ q.VariableName ≠ "DefaultUserSettings")
    (hout : get_environment env ps = some out) :
    (dget out "ResponseMetadata" = none
      ∧ dget out "CreationTime" = none
      ∧ dget out "LastModifiedTime" = none
      ∧ dget out "DefaultUserSettings" = none)
    ∧ (∀ kv ∈ dus, hasKey out kv.1 = true)
    ∧ (∀ k, hasKey (envTagDict env.domainTags) k = true ↔
        (k = "EnvironmentName" ∨ k = "EnvironmentType")
          ∧ ∃ t ∈ env.domainTags, t.key = k) := by
  have hr1 : dget (ddel (ddel (ddel env.domainResponse "ResponseMetadata")
      "CreationTime") "LastModifiedTime") "DefaultUserSettings"
      = some (Val.obj dus) := by
    rw [dget_ddel, if_neg (by decide), dget_ddel, if_neg (by decide),
      dget_ddel, if_neg (by decide)]
    exact hdus
  unfold get_environment envBase at hout
  simp only [hr1] at hout
  obtain rfl := Option.some.inj hout
  refine ⟨⟨?_, ?_, ?_, ?_⟩, ?_, fun k => hasKey_envTagDict env.domainTags k⟩
  · exact dget_out_banned env ps dus "ResponseMetadata" (by decide)
      (by decide)
      (Or.inl (by rw [dget_ddel, if_neg (by decide), dget_ddel,
        if_neg (by decide), dget_ddel, if_pos rfl]))
      (fun kv hm => (hduskeys kv hm).1) (fun q hq => (hpskeys q hq).1)
  · exact dget_out_banned env ps dus "CreationTime" (by decide) (by decide)
      (Or.inl (by rw [dget_ddel, if_neg (by decide), dget_ddel,
        if_pos rfl]))
      (fun kv hm => (hduskeys kv hm).2.1) (fun q hq => (hpskeys q hq).2.1)
  · exact dget_out_banned env ps dus "LastModifiedTime" (by decide)
      (by decide)
      (Or.inl (by rw [dget_ddel, if_pos rfl]))
      (fun kv hm => (hduskeys kv hm).2.2.1)
      (fun q hq => (hpskeys q hq).2.2.1)
  · exact dget_out_banned env ps dus "DefaultUserSettings" (by decide)
      (by decide) (Or.inr rfl)
      (fun kv hm => (hduskeys kv hm).2.2.2)
      (fun q hq => (hpskeys q hq).2.2.2)
  · intro kv hm
    apply foldl_ssmStep_hasKey
    show (dget (dmerge _ _) kv.1).isSome = true
    rw [dget_dmerge]
    apply isSome_orElse
    rw [dget_ddel, if_neg (hduskeys kv hm).2.2.2, dget_dmerge]
    apply isSome_orElse_left
    exact (dget_isSome_iff _ _).mpr ⟨kv, List.mem_reverse.mpr hm, rfl⟩

/-- Witness for C8 at the concrete environment: the four keys are absent
from the concrete output, the `DefaultUserSettings` key appears, and the
tag characterization holds. -/
theorem C8_get_environment_keys_witness :
    (dget (sampleBase ++ [("DataBucketName",
        Val.prim "myenv-dev-data-bucket")]) "ResponseMetadata" = none
      ∧ dget (sampleBase ++ [("DataBucketName",
          Val.prim "myenv-dev-data-bucket")]) "CreationTime" = none
      ∧ dget (sampleBase ++ [("DataBucketName",
          Val.prim "myenv-dev-data-bucket")]) "LastModifiedTime" = none
      ∧ dget (sampleBase ++ [("DataBucketName",
          Val.prim "myenv-dev-data-bucket")]) "DefaultUserSettings" = none)
    ∧ (∀ kv ∈ [("ExecutionRole", Val.prim "arn:aws:iam::111:role/exec")],
        hasKey (sampleBase ++ [("DataBucketName",
          Val.prim "myenv-dev-data-bucket")]) kv.1 = true)
    ∧ (∀ k, hasKey (envTagDict sampleOkEnv.domainTags) k = true ↔
        (k = "EnvironmentName" ∨ k = "EnvironmentType")
          ∧ ∃ t ∈ sampleOkEnv.domainTags, t.key = k) :=
  C8_get_environment_keys sampleOkEnv sampleParams
    (sampleBase ++ [("DataBucketName", Val.prim "myenv-dev-data-bucket")])
    [("ExecutionRole", Val.prim "arn:aws:iam::111:role/exec")]
    rfl (by decide) (by decide) rfl

/-- Shape of a loop trace: `k` sleeps of exactly 20 seconds, and nothing
but polls and 20-second sleeps. -/
theorem waitTrace_events (k : Nat) :
    (waitTrace k).count (WaitEv.sleep 20) = k
    ∧ ∀ ev ∈ waitTrace k, ev = WaitEv.poll ∨ ev = WaitEv.sleep 20 := by
  induction k with
  | zero =>
      refine ⟨rfl, ?_⟩
      intro ev hev
      have h : ev = WaitEv.poll := by simpa [waitTrace] using hev
      exact Or.inl h
  | succ k ih =>
      constructor
      · show (WaitEv.poll :: WaitEv.sleep 20 :: waitTrace k).count
            (WaitEv.sleep 20) = k + 1
        simp [List.count_cons, ih.1]
      · intro ev hev
        have h : ev = WaitEv.poll ∨ ev = WaitEv.sleep 20 ∨
            ev ∈ waitTrace k := by simpa [waitTrace] using hev
        rcases h with rfl | rfl | h
        · exact Or.inl rfl
        · exact Or.inr rfl
        · exact ih.2 ev h

/-- C3: each client-side waiting loop polls the remote pipeline state,
sleeps a fixed 20 seconds between polls, and exits normally exactly when
the named action's `latestExecution` status equals the literal string -
`ApproveStagingDeployment` = `"InProgress"` in stage `DeployModelStaging`
for the staging loop, `DeployProd` = `"Succeeded"` in stage
`DeployModelProd` for the production loop; no other condition ends either
loop normally. -/
theorem C3_polling_loops (states : List PipelineState) (tr : List WaitEv) :
    (stagingWait states = some tr ↔
      ∃ pre st post, states = pre ++ st :: post
        ∧ (∀ s ∈ pre, ¬ actionStatusMatches s "DeployModelStaging"
              "ApproveStagingDeployment" "InProgress"
            ∧ (loopCount s "DeployModelStaging" "ApproveStagingDeployment"
                "InProgress").isSome = true)
        ∧ actionStatusMatches st "DeployModelStaging"
            "ApproveStagingDeployment" "InProgress"
        ∧ tr = waitTrace pre.length)
    ∧ (prodWait states = some tr ↔
      ∃ pre st post, states = pre ++ st :: post
        ∧ (∀ s ∈ pre, ¬ actionStatusMatches s "DeployModelProd"
              "DeployProd" "Succeeded"
            ∧ (loopCount s "DeployModelProd" "DeployProd"
                "Succeeded").isSome = true)
        ∧ actionStatusMatches st "DeployModelProd" "DeployProd" "Succeeded"
        ∧ tr = waitTrace pre.length)
    ∧ (∀ k, (waitTrace k).count (WaitEv.sleep 20) = k
        ∧ ∀ ev ∈ waitTrace k, ev = WaitEv.poll ∨ ev = WaitEv.sleep 20) :=
  ⟨waitLoop_spec "DeployModelStaging" "ApproveStagingDeployment"
      "InProgress" states tr,
   waitLoop_spec "DeployModelProd" "DeployProd" "Succeeded" states tr,
   fun k => waitTrace_events k⟩

/-- Witness for C3: both loops, run against a single polled state in which
the watched action carries the watched status, exit immediately with a
poll-only trace. -/
theorem C3_polling_loops_witness :
    (∃ pre st post,
      ([[StageState.mk "DeployModelStaging"
          [ActionState.mk "ApproveStagingDeployment"
            (some (ActionExecution.mk "InProgress"))]]]
        : List PipelineState) = pre ++ st :: post
      ∧ (∀ s ∈ pre, ¬ actionStatusMatches s "DeployModelStaging"
            "ApproveStagingDeployment" "InProgress"
          ∧ (loopCount s "DeployModelStaging" "ApproveStagingDeployment"
              "InProgress").isSome = true)
      ∧ actionStatusMatches st "DeployModelStaging"
          "ApproveStagingDeployment" "InProgress"
      ∧ [WaitEv.poll] = waitTrace pre.length)
    ∧ (∃ pre st post,
      ([[StageState.mk "DeployModelProd"
          [ActionState.mk "DeployProd"
            (some (ActionExecution.mk "Succeeded"))]]]
        : List PipelineState) = pre ++ st :: post
      ∧ (∀ s ∈ pre, ¬ actionStatusMatches s "DeployModelProd"
            "DeployProd" "Succeeded"
          ∧ (loopCount s "DeployModelProd" "DeployProd"
              "Succeeded").isSome = true)
      ∧ actionStatusMatches st "DeployModelProd" "DeployProd" "Succeeded"
      ∧ [WaitEv.poll] = waitTrace pre.length) :=
  ⟨((C3_polling_loops
      [[StageState.mk "DeployModelStaging"
          [ActionState.mk "ApproveStagingDeployment"
            (some (ActionExecution.mk "InProgress"))]]]
      [WaitEv.poll]).1).mp rfl,
   ((C3_polling_loops
      [[StageState.mk "DeployModelProd"
          [ActionState.mk "DeployProd"
            (some (ActionExecution.mk "Succeeded"))]]]
      [WaitEv.poll]).2.1).mp rfl⟩

end SecureMLOps
